import Mathlib

/-!
Verification of the MCOS bank-account / currency-exchange program
(`src/rust/src/main.rs`) against its natural-language specification.

The program keeps an in-memory list of accounts and a table of exchange
rates keyed by currency code, with PHP as the home currency.  We embed
the core shallowly: monetary values become exact rationals (the Rust
code uses `f64`; the claims under study are about the algebraic shape of
the arithmetic, which the exact embedding preserves), the `HashMap` of
rates becomes a function from codes to `Option ℚ` (a missing key, which
panics in Rust, is `none`), prompting and parsing are out of scope so
operations receive already-parsed values, and each interactive procedure
becomes a pure function returning `Except` or the updated state.
-/

namespace MCOS

/-- The number of exchangeable currencies (`CURRENCY_CNT`). -/
def CURRENCY_CNT : Nat := 6

/-- The ISO 4217 codes of the exchangeable currencies (`CURRENCIES_CODES`).
Index 0 is the home currency PHP. -/
def CURRENCIES_CODES : List String := ["PHP", "USD", "JPY", "GBP", "EUR", "CNY"]

/-- Errors reported by the transactions.  The Rust code prints a message and
returns early; we name each early-return branch.  `MissingRate` stands for the
panic of `rates[key]` on a missing `HashMap` key in `convert_currency`. -/
inductive TxError where
  | UnknownCurrency
  | DuplicateAccount
  | InsufficientFunds
  | MissingRate
deriving DecidableEq

/-- A simple user bank account (struct `Account`, which derives `PartialEq`,
i.e. equality of all three fields). -/
structure Account where
  name : String
  balance : ℚ
  currency : String
deriving DecidableEq

/-- `Account::new`: a fresh account with balance 0 in PHP. -/
def Account.new (name : String) : Account :=
  Account.mk name 0 "PHP"

/-- The exchange-rate table: Rust `HashMap<&str, f64>`, embedded as a
function from codes to optional rates. -/
def RateTable : Type := String → Option ℚ

/-- `HashMap::insert`: later inserts shadow earlier ones. -/
def insertRate (rates : RateTable) (code : String) (rate : ℚ) : RateTable :=
  fun k => if k = code then some rate else rates k

/-- The empty `HashMap`. -/
def emptyRates : RateTable := fun _ => none

/-- The rate table built at the start of `main`: every code after the first
(the five foreign codes) is inserted with rate 1.0. -/
def init_rates : RateTable :=
  (CURRENCIES_CODES.drop 1).foldl (fun rates code => insertRate rates code 1) emptyRates

/-- `convert_currency`: pivot through PHP.  `none` models the Rust panic when
`rates[src]` or `rates[dest]` is looked up on a missing key. -/
def convert_currency (amount : ℚ) (src dest : String) (rates : RateTable) : Option ℚ :=
  match (if src = "PHP" then some amount else Option.map (fun r => amount * r) (rates src)) with
  | none => none
  | some src_php_amount =>
      if dest = "PHP" then some src_php_amount
      else Option.map (fun r => src_php_amount * r) (rates dest)

/-- The home-currency delta that `deposit_balance` and `withdraw_balance` both
compute from the entered amount: the amount itself for PHP, otherwise
`convert_currency(amount, currency, "PHP", rates)`. -/
def home_delta (currency : String) (amount : ℚ) (rates : RateTable) : Option ℚ :=
  if currency = "PHP" then some amount
  else convert_currency amount currency "PHP" rates

/-- `deposit_balance` on already-parsed input: reject unknown currency codes,
then add the home-converted delta to the balance.  No sign check. -/
def deposit_balance (account : Account) (currency : String) (amount : ℚ)
    (rates : RateTable) : Except TxError Account :=
  if ¬ (currency ∈ CURRENCIES_CODES) then Except.error TxError.UnknownCurrency
  else
    match home_delta currency amount rates with
    | none => Except.error TxError.MissingRate
    | some d => Except.ok (Account.mk account.name (account.balance + d) account.currency)

/-- `withdraw_balance` on already-parsed input: reject unknown currency codes,
convert to home currency, reject if the result would make the balance
negative, otherwise subtract. -/
def withdraw_balance (account : Account) (currency : String) (amount : ℚ)
    (rates : RateTable) : Except TxError Account :=
  if ¬ (currency ∈ CURRENCIES_CODES) then Except.error TxError.UnknownCurrency
  else
    match home_delta currency amount rates with
    | none => Except.error TxError.MissingRate
    | some d =>
        if account.balance - d < 0 then Except.error TxError.InsufficientFunds
        else Except.ok (Account.mk account.name (account.balance - d) account.currency)

/-- The registration branch of `main` (transaction 1): build
`Account::new(name)` and push it unless the vector already `contains` an
account equal to it in all fields. -/
def register (accounts : List Account) (name : String) : Except TxError (List Account) :=
  if Account.new name ∈ accounts then Except.error TxError.DuplicateAccount
  else Except.ok (accounts ++ [Account.new name])

/-- Registration as it acts on the account vector: on the duplicate branch the
vector is left as it was. -/
def register_step (accounts : List Account) (name : String) : List Account :=
  match register accounts name with
  | Except.ok l => l
  | Except.error _ => accounts

/-- A deposit as it acts on the found account: an erroring deposit prints a
message and leaves the account as it was. -/
def deposit_step (account : Account) (currency : String) (amount : ℚ)
    (rates : RateTable) : Account :=
  match deposit_balance account currency amount rates with
  | Except.ok a2 => a2
  | Except.error _ => account

/-- A withdrawal as it acts on the found account: an erroring withdrawal
prints a message and leaves the account as it was. -/
def withdraw_step (account : Account) (currency : String) (amount : ℚ)
    (rates : RateTable) : Account :=
  match withdraw_balance account currency amount rates with
  | Except.ok a2 => a2
  | Except.error _ => account

/-- `set_exchange_rate` on already-parsed input: indices `≥ CURRENCY_CNT` are
rejected; otherwise the parsed rate is inserted, without any further check,
under `CURRENCIES_CODES[idx]`. -/
def set_exchange_rate (rates : RateTable) (idx : Nat) (rate : ℚ) : Option RateTable :=
  if CURRENCY_CNT ≤ idx then none
  else some (insertRate rates (CURRENCIES_CODES.getD idx "") rate)

/-- The fixed annual interest rate (`ANNUAL_INTEREST_RATE = 0.05`). -/
def ANNUAL_INTEREST_RATE : ℚ := 5 / 100

/-- Rust `f64::round`: round half away from zero. -/
def rust_round (x : ℚ) : ℤ :=
  if x < 0 then -(Int.floor (-x + 1 / 2)) else Int.floor (x + 1 / 2)

/-- The daily delta of `calculate_interest`:
`(balance * (ANNUAL_INTEREST_RATE / 365.0) * 100.0).round() / 100.0`,
computed once from the starting balance. -/
def daily_interest (balance : ℚ) : ℚ :=
  (rust_round (balance * (ANNUAL_INTEREST_RATE / 365) * 100) : ℚ) / 100

/-- The loop body of `calculate_interest`: each iteration adds `daily` to the
running balance and emits the row `(day, daily, balance)`. -/
def interest_rows_aux (daily : ℚ) : Nat → Nat → ℚ → List (Nat × ℚ × ℚ)
  | 0, _, _ => []
  | n + 1, i, balance =>
      (i, daily, balance + daily) :: interest_rows_aux daily n (i + 1) (balance + daily)

/-- `calculate_interest` on an already-parsed day count: the emitted table of
`(day, interest, balance)` rows for days `1..=day_cnt`. -/
def calculate_interest (account : Account) (day_cnt : Nat) : List (Nat × ℚ × ℚ) :=
  interest_rows_aux (daily_interest account.balance) day_cnt 1 account.balance

/-- The balance shown on the last emitted row, or the starting balance when no
row is emitted. -/
def final_row_balance (b : ℚ) (rows : List (Nat × ℚ × ℚ)) : ℚ :=
  rows.foldl (fun _ row => row.2.2) b

/-- A validated transaction of the session, as dispatched by the `main` loop.
Amounts and indices arrive already parsed; prompting is out of scope. -/
inductive Op where
  | register (name : String)
  | deposit (name : String) (currency : String) (amount : ℚ)
  | withdraw (name : String) (currency : String) (amount : ℚ)
  | setRate (idx : Nat) (rate : ℚ)
deriving DecidableEq

/-- The session state owned by `main`: the account vector and the rate table. -/
structure SessionState where
  accounts : List Account
  rates : RateTable

/-- The state at the top of the `main` loop: no accounts, all foreign rates 1. -/
def init_state : SessionState :=
  SessionState.mk [] init_rates

/-- `Vec::iter_mut().find(...)` followed by mutation in place: apply `f` to the
first account whose name matches, leaving the rest untouched. -/
def update_first (accounts : List Account) (name : String) (f : Account → Account) :
    List Account :=
  match accounts with
  | [] => []
  | a :: rest => if a.name = name then f a :: rest else a :: update_first rest name f

/-- One dispatch of the `main` loop on a validated transaction.  A transaction
that errors prints a message and leaves the state as it was. -/
def step (s : SessionState) : Op → SessionState
  | Op.register name => SessionState.mk (register_step s.accounts name) s.rates
  | Op.deposit name currency amount =>
      SessionState.mk
        (update_first s.accounts name (fun a => deposit_step a currency amount s.rates))
        s.rates
  | Op.withdraw name currency amount =>
      SessionState.mk
        (update_first s.accounts name (fun a => withdraw_step a currency amount s.rates))
        s.rates
  | Op.setRate idx rate =>
      SessionState.mk s.accounts ((set_exchange_rate s.rates idx rate).getD s.rates)

/-- A whole session fragment: fold the dispatched transactions over a state. -/
def run_ops (s : SessionState) (ops : List Op) : SessionState :=
  ops.foldl step s

/-- Every stored rate is non-negative. -/
def rates_nonneg (rates : RateTable) : Prop :=
  ∀ c r, rates c = some r → 0 ≤ r

/-- Every foreign catalog code has an entry in the table. -/
def rates_complete (rates : RateTable) : Prop :=
  ∀ c ∈ CURRENCIES_CODES, c ≠ "PHP" → (rates c).isSome = true

/-- Every account in the registry has a non-negative balance. -/
def balances_nonneg (accounts : List Account) : Prop :=
  ∀ a ∈ accounts, 0 ≤ a.balance

/-- Transactions allowed by the amended claim C4: register, withdraw, and
deposits of non-negative amounts; no rate updates. -/
def allowed_op : Op → Bool
  | Op.register _ => true
  | Op.deposit _ _ amount => decide (0 ≤ amount)
  | Op.withdraw _ _ _ => true
  | Op.setRate _ _ => false

/-! ### Supporting lemmas -/

/-- A home-currency delta computed from a non-negative amount over a
non-negative rate table is non-negative. -/
lemma home_delta_nonneg (c : String) (x : ℚ) (rates : RateTable)
    (hr : rates_nonneg rates) (hx : 0 ≤ x) (d : ℚ)
    (hd : home_delta c x rates = some d) : 0 ≤ d := by
  by_cases hc : c = "PHP"
  · simp only [home_delta, hc, if_pos, Option.some.injEq] at hd
    exact hd ▸ hx
  · cases hrc : rates c with
    | none => simp [home_delta, hc, convert_currency, hrc] at hd
    | some r =>
        simp [home_delta, hc, convert_currency, hrc] at hd
        exact hd ▸ mul_nonneg hx (hr c r hrc)

/-- A successful deposit of a non-negative amount keeps the balance
non-negative. -/
lemma deposit_ok_nonneg (a : Account) (c : String) (x : ℚ) (rates : RateTable)
    (hr : rates_nonneg rates) (hx : 0 ≤ x) (ha : 0 ≤ a.balance) (a2 : Account)
    (h : deposit_balance a c x rates = Except.ok a2) : 0 ≤ a2.balance := by
  unfold deposit_balance at h
  split at h
  · exact Except.noConfusion h
  · cases hd : home_delta c x rates with
    | none => rw [hd] at h; exact Except.noConfusion h
    | some d =>
        rw [hd] at h
        simp only [Except.ok.injEq] at h
        have hdn := home_delta_nonneg c x rates hr hx d hd
        rw [← h]
        simpa using add_nonneg ha hdn

/-- Any successful withdrawal keeps the balance non-negative: the overdraft
guard fires exactly when the result would be negative. -/
lemma withdraw_ok_nonneg (a : Account) (c : String) (x : ℚ) (rates : RateTable)
    (a2 : Account) (h : withdraw_balance a c x rates = Except.ok a2) :
    0 ≤ a2.balance := by
  by_cases hcur : c ∈ CURRENCIES_CODES
  · cases hd : home_delta c x rates with
    | none => simp [withdraw_balance, hcur, hd] at h
    | some d =>
        by_cases hguard : a.balance - d < 0
        · simp [withdraw_balance, hcur, hd, hguard] at h
        · simp [withdraw_balance, hcur, hd, hguard] at h
          rw [← h]
          simpa using le_of_not_lt hguard
  · simp [withdraw_balance, hcur] at h

/-- `update_first` preserves any pointwise property that `f` preserves. -/
lemma update_first_forall (P : Account → Prop) (accounts : List Account)
    (name : String) (f : Account → Account)
    (hb : ∀ a ∈ accounts, P a) (hf : ∀ a, P a → P (f a)) :
    ∀ a ∈ update_first accounts name f, P a := by
  induction accounts with
  | nil => simp [update_first]
  | cons a rest ih =>
      intro b hmem
      by_cases hname : a.name = name
      · rw [update_first, if_pos hname] at hmem
        rcases List.mem_cons.mp hmem with h1 | h1
        · exact h1 ▸ hf a (hb a (List.mem_cons_self a rest))
        · exact hb b (List.mem_cons_of_mem a h1)
      · rw [update_first, if_neg hname] at hmem
        rcases List.mem_cons.mp hmem with h1 | h1
        · exact h1 ▸ hb a (List.mem_cons_self a rest)
        · exact ih (fun x hx => hb x (List.mem_cons_of_mem a hx)) b h1

/-- Registration preserves non-negative balances: a fresh account starts at
balance 0. -/
lemma register_step_nonneg (accounts : List Account) (name : String)
    (hb : balances_nonneg accounts) : balances_nonneg (register_step accounts name) := by
  unfold register_step register
  by_cases h : Account.new name ∈ accounts
  · simpa [h] using hb
  · rw [if_neg h]
    intro a ha
    rcases List.mem_append.mp ha with h1 | h1
    · exact hb a h1
    · rw [List.mem_singleton.mp h1, Account.new]

/-- One allowed dispatch preserves both session invariants. -/
lemma step_preserves (s : SessionState) (op : Op) (hop : allowed_op op = true)
    (hr : rates_nonneg s.rates) (hb : balances_nonneg s.accounts) :
    rates_nonneg (step s op).rates ∧ balances_nonneg (step s op).accounts := by
  cases op with
  | register name => exact ⟨hr, register_step_nonneg s.accounts name hb⟩
  | deposit name currency amount =>
      refine ⟨hr, ?_⟩
      have hx : 0 ≤ amount := by simpa [allowed_op] using hop
      apply update_first_forall (fun a => 0 ≤ a.balance) s.accounts name _ hb
      intro a ha
      unfold deposit_step
      cases hda : deposit_balance a currency amount s.rates with
      | ok a2 => exact deposit_ok_nonneg a currency amount s.rates hr hx ha a2 hda
      | error e => exact ha
  | withdraw name currency amount =>
      refine ⟨hr, ?_⟩
      apply update_first_forall (fun a => 0 ≤ a.balance) s.accounts name _ hb
      intro a ha
      unfold withdraw_step
      cases hda : withdraw_balance a currency amount s.rates with
      | ok a2 => exact withdraw_ok_nonneg a currency amount s.rates a2 hda
      | error e => exact ha
  | setRate idx rate => exact absurd hop (by simp [allowed_op])

/-- A whole run of allowed transactions preserves both session invariants. -/
lemma run_ops_preserves (ops : List Op) (s : SessionState)
    (hops : ∀ op ∈ ops, allowed_op op = true)
    (hr : rates_nonneg s.rates) (hb : balances_nonneg s.accounts) :
    rates_nonneg (run_ops s ops).rates ∧ balances_nonneg (run_ops s ops).accounts := by
  induction ops generalizing s with
  | nil => exact ⟨hr, hb⟩
  | cons op rest ih =>
      have h1 := step_preserves s op (hops op (List.mem_cons_self op rest)) hr hb
      exact ih (step s op) (fun o ho => hops o (List.mem_cons_of_mem op ho)) h1.1 h1.2

/-- The initial rate table stores only the rate 1, which is non-negative. -/
lemma init_rates_nonneg : rates_nonneg init_rates := by
  intro c r h
  simp only [init_rates, CURRENCIES_CODES, List.drop, List.foldl, insertRate, emptyRates] at h
  split_ifs at h <;> simp_all <;> linarith

/-- The initial rate table has an entry for every foreign catalog code. -/
lemma init_rates_complete : rates_complete init_rates := by
  unfold rates_complete
  decide

/-- Inserting any rate preserves completeness of the table. -/
lemma rates_complete_insert (rates : RateTable) (c : String) (v : ℚ)
    (h : rates_complete rates) : rates_complete (insertRate rates c v) := by
  intro d hd hdn
  unfold insertRate
  by_cases hdc : d = c
  · simp [hdc]
  · simpa [hdc] using h d hd hdn

/-- Every dispatch preserves completeness of the rate table: rates are only
ever inserted, never removed. -/
lemma step_complete (s : SessionState) (op : Op) (h : rates_complete s.rates) :
    rates_complete (step s op).rates := by
  cases op with
  | register name => exact h
  | deposit name currency amount => exact h
  | withdraw name currency amount => exact h
  | setRate idx rate =>
      show rates_complete ((set_exchange_rate s.rates idx rate).getD s.rates)
      unfold set_exchange_rate
      by_cases hidx : CURRENCY_CNT ≤ idx
      · simpa [hidx] using h
      · simpa [hidx] using rates_complete_insert s.rates _ rate h

/-- Completeness of the rate table holds after any run of transactions. -/
lemma run_ops_complete (ops : List Op) (s : SessionState)
    (h : rates_complete s.rates) : rates_complete (run_ops s ops).rates := by
  induction ops generalizing s with
  | nil => exact h
  | cons op rest ih => exact ih (step s op) (step_complete s op h)

/-- Conversion over a complete rate table never hits a missing key. -/
lemma convert_currency_isSome (x : ℚ) (src dest : String) (rates : RateTable)
    (h : rates_complete rates) (hs : src ∈ CURRENCIES_CODES)
    (hd : dest ∈ CURRENCIES_CODES) :
    (convert_currency x src dest rates).isSome = true := by
  unfold convert_currency
  by_cases h1 : src = "PHP" <;> by_cases h2 : dest = "PHP"
  · simp [h1, h2]
  · obtain ⟨r, hr⟩ := Option.isSome_iff_exists.mp (h dest hd h2)
    simp [h1, h2, hr]
  · obtain ⟨r, hr⟩ := Option.isSome_iff_exists.mp (h src hs h1)
    simp [h1, h2, hr]
  · obtain ⟨r, hr⟩ := Option.isSome_iff_exists.mp (h src hs h1)
    obtain ⟨r2, hr2⟩ := Option.isSome_iff_exists.mp (h dest hd h2)
    simp [h1, h2, hr, hr2]

/-- The interest loop emits one row per day. -/
lemma interest_rows_aux_length (d : ℚ) (n i : Nat) (b : ℚ) :
    (interest_rows_aux d n i b).length = n := by
  induction n generalizing i b with
  | zero => rfl
  | succ m ih => simp [interest_rows_aux, ih]

/-- Every row of the interest loop carries the same daily delta. -/
lemma interest_rows_aux_interest (d : ℚ) (n i : Nat) (b : ℚ) :
    ∀ row ∈ interest_rows_aux d n i b, row.2.1 = d := by
  induction n generalizing i b with
  | zero => simp [interest_rows_aux]
  | succ m ih =>
      intro row hrow
      rcases List.mem_cons.mp hrow with h1 | h1
      · rw [h1]
      · exact ih (i + 1) (b + d) row h1

/-- The balance on the last row of the interest loop is the starting balance
plus the daily delta taken once per day. -/
lemma interest_rows_aux_final (d : ℚ) (n i : Nat) (b : ℚ) :
    final_row_balance b (interest_rows_aux d n i b) = b + n * d := by
  induction n generalizing i b with
  | zero => simp [interest_rows_aux, final_row_balance]
  | succ m ih =>
      have h2 : final_row_balance b (interest_rows_aux d (m + 1) i b)
          = final_row_balance (b + d) (interest_rows_aux d m (i + 1) (b + d)) := rfl
      rw [h2, ih (i + 1) (b + d)]
      push_cast
      ring

/-! ### Claims -/

/-- Claim C1: for a foreign catalog code `F` with stored rate `r`, converting
`x` from `F` to the home currency yields `x * r`, and converting `x` from the
home currency to `F` also yields `x * r` — the same multiplier is applied in
both directions. -/
theorem C1_rate_application (x r : ℚ) (F : String) (rates : RateTable)
    (_hcat : F ∈ CURRENCIES_CODES) (hF : F ≠ "PHP") (hr : rates F = some r) :
    convert_currency x F "PHP" rates = some (x * r) ∧
    convert_currency x "PHP" F rates = some (x * r) := by
  constructor <;> simp [convert_currency, hF, hr]

/-- Witness for C1 at `F = "USD"`, `r = 1`, `x = 7` over the initial table. -/
theorem C1_rate_application_witness :
    convert_currency 7 "USD" "PHP" init_rates = some 7 ∧
    convert_currency 7 "PHP" "USD" init_rates = some 7 := by
  have h := C1_rate_application 7 1 "USD" init_rates (by decide) (by decide) (by rfl)
  simpa using h

/-- Claim C2: the interest projection computes the daily delta once as
`round_to_cents(B0 * 0.05 / 365)` from the starting balance, emits one row per
day all carrying that delta, and the balance on the last of the `N` rows is
`B0 + N * round_to_cents(B0 * 0.05 / 365)`. -/
theorem C2_interest_total (account : Account) (N : Nat) :
    (calculate_interest account N).length = N ∧
    (∀ row ∈ calculate_interest account N, row.2.1 = daily_interest account.balance) ∧
    final_row_balance account.balance (calculate_interest account N)
      = account.balance + N * daily_interest account.balance :=
  ⟨interest_rows_aux_length (daily_interest account.balance) N 1 account.balance,
   interest_rows_aux_interest (daily_interest account.balance) N 1 account.balance,
   interest_rows_aux_final (daily_interest account.balance) N 1 account.balance⟩

/-- Witness for C2 at the spec's own scenario: balance 10000, 3 days, daily
delta `round(10000 * 0.05 / 365 * 100) / 100 = 1.37`, final balance 10004.11. -/
theorem C2_interest_total_witness :
    final_row_balance 10000 (calculate_interest (Account.mk "Fay" 10000 "PHP") 3)
      = 10000 + 3 * daily_interest 10000 ∧ daily_interest 10000 = 137 / 100 :=
  ⟨(C2_interest_total (Account.mk "Fay" 10000 "PHP") 3).2.2,
   by norm_num [daily_interest, rust_round, ANNUAL_INTEREST_RATE]⟩

/-- Counterexample to claim C3: the duplicate check compares all fields of the
fresh account, not just the name, so a name owned by an account whose balance
is no longer 0 can be registered again — the registry changes instead of
being left unchanged. -/
theorem C3_unique_names_counterexample :
    register [Account.mk "Alice" 100 "PHP"] "Alice"
      = Except.ok [Account.mk "Alice" 100 "PHP", Account.mk "Alice" 0 "PHP"] := by
  norm_num [register, Account.new]

/-- Claim C3 as amended: registering `name` fails with `DuplicateAccount` and
leaves the registry unchanged exactly when the registry contains an account
equal to `Account::new(name)` in all fields (name, balance 0, currency PHP);
otherwise the fresh account is appended. -/
theorem C3_unique_names_amended (accounts : List Account) (name : String) :
    (Account.new name ∈ accounts →
      register accounts name = Except.error TxError.DuplicateAccount ∧
      register_step accounts name = accounts) ∧
    (Account.new name ∉ accounts →
      register accounts name = Except.ok (accounts ++ [Account.new name])) := by
  constructor
  · intro h
    constructor <;> simp [register, register_step, h]
  · intro h
    simp [register, h]

/-- Witness for C3: a freshly registered (still all-default) account does make
the second registration fail and leave the registry unchanged. -/
theorem C3_unique_names_witness :
    register [Account.new "Alice"] "Alice" = Except.error TxError.DuplicateAccount ∧
    register_step [Account.new "Alice"] "Alice" = [Account.new "Alice"] :=
  (C3_unique_names_amended [Account.new "Alice"] "Alice").1 (by simp)

/-- Counterexample to claim C4: a deposit of the parseable, catalog-valid
amount `-100` PHP drives a fresh account's balance to `-100 < 0`. -/
theorem C4_nonneg_balance_counterexample :
    (run_ops init_state [Op.register "A", Op.deposit "A" "PHP" (-100)]).accounts
      = [Account.mk "A" (-100) "PHP"] ∧ (Account.mk "A" (-100) "PHP").balance < 0 := by
  constructor
  · norm_num [run_ops, init_state, step, register_step, register, Account.new, update_first,
      deposit_step, deposit_balance, home_delta, CURRENCIES_CODES, List.foldl]
  · norm_num

/-- Claim C4 as amended: after any sequence of register, deposit, and withdraw
transactions *whose deposit amounts are all non-negative*, starting from
session initialization, every account's balance is ≥ 0.  (Negative deposit
amounts are accepted by the code and violate the original claim.) -/
theorem C4_nonneg_balance_amended (ops : List Op)
    (hops : ∀ op ∈ ops, allowed_op op = true) :
    ∀ a ∈ (run_ops init_state ops).accounts, 0 ≤ a.balance :=
  (run_ops_preserves ops init_state hops init_rates_nonneg
    (fun a ha => absurd ha (List.not_mem_nil a))).2

/-- Witness for C4: after registering an account and depositing 5 USD at the
initial rate 1, the resulting account holds the non-negative balance 5. -/
theorem C4_nonneg_balance_witness :
    0 ≤ (Account.mk "A" 5 "PHP").balance :=
  C4_nonneg_balance_amended [Op.register "A", Op.deposit "A" "USD" 5] (by decide)
    (Account.mk "A" 5 "PHP")
    (by norm_num [run_ops, init_state, step, register_step, register, Account.new,
      update_first, deposit_step, deposit_balance, home_delta, convert_currency, init_rates,
      insertRate, emptyRates, CURRENCIES_CODES, List.foldl])

/-- Counterexample to claim C5: `set_exchange_rate` performs no rate
validation — the non-positive value `-5` is stored for USD instead of being
rejected with `InvalidRate`. -/
theorem C5_set_rate_counterexample :
    (set_exchange_rate init_rates 1 (-5)).map (fun t => t "USD") = some (some (-5)) ∧
    ((-5 : ℚ) ≤ 0) := by
  constructor
  · rfl
  · norm_num

/-- Claim C5 as amended: `set_exchange_rate` validates only that the index is
in bounds; every parsed value, positive or not, is stored unchanged for the
selected code.  There is no `InvalidRate` rejection. -/
theorem C5_set_rate_amended (rates : RateTable) (idx : Nat) (rate : ℚ)
    (h : idx < CURRENCY_CNT) :
    (set_exchange_rate rates idx rate).map (fun t => t (CURRENCIES_CODES.getD idx ""))
      = some (some rate) := by
  simp [set_exchange_rate, Nat.not_le.mpr h, insertRate]

/-- Witness for C5 at index 2 (JPY) and value `-7`. -/
theorem C5_set_rate_witness :
    (set_exchange_rate init_rates 2 (-7)).map (fun t => t (CURRENCIES_CODES.getD 2 ""))
      = some (some (-7)) :=
  C5_set_rate_amended init_rates 2 (-7) (by decide)

/-- Counterexample to claim C6: entering 2 selects JPY, not USD — after
`set_exchange_rate` with index 2 and rate 55, the USD rate is still 1 and the
JPY rate is 55. -/
theorem C6_rate_index_counterexample :
    (set_exchange_rate init_rates 2 55).map (fun t => (t "USD", t "JPY"))
      = some (some 1, some 55) := by rfl

/-- Claim C6 as amended: the accepted input is interpreted as a 0-based index
into the original full currency list, matching the displayed menu (entering 1
selects USD, entering 2 selects JPY); validation accepts index 0, which
addresses the home-currency PHP slot, and rejects indices ≥ 6 (so CNY, shown
as option 5, is unreachable via its 1-based full-list position 6). -/
theorem C6_rate_index_amended (rates : RateTable) (rate : ℚ) :
    ((set_exchange_rate rates 1 rate).map (fun t => t "USD") = some (some rate)) ∧
    ((set_exchange_rate rates 0 rate).map (fun t => t "PHP") = some (some rate)) ∧
    (∀ idx, CURRENCY_CNT ≤ idx → set_exchange_rate rates idx rate = none) := by
  refine ⟨rfl, rfl, ?_⟩
  intro idx h
  simp [set_exchange_rate, h]

/-- Witness for C6 at rate 9/2: index 1 writes USD, index 6 is rejected. -/
theorem C6_rate_index_witness :
    (set_exchange_rate init_rates 1 (9 / 2)).map (fun t => t "USD")
      = some (some (9 / 2)) ∧
    set_exchange_rate init_rates 6 (9 / 2) = none :=
  ⟨(C6_rate_index_amended init_rates (9 / 2)).1,
   (C6_rate_index_amended init_rates (9 / 2)).2.2 6 (by decide)⟩

/-- Claim C7: when the home-converted delta `d` exceeds the balance
(`balance - d < 0`), the withdrawal fails with `InsufficientFunds` and the
account is left exactly as it was; a withdrawal of exactly the full balance
succeeds and leaves balance 0. -/
theorem C7_withdraw_guard (account : Account) (currency : String) (amount : ℚ)
    (rates : RateTable) (hcur : currency ∈ CURRENCIES_CODES) (d : ℚ)
    (hd : home_delta currency amount rates = some d) :
    (account.balance - d < 0 →
      withdraw_balance account currency amount rates
        = Except.error TxError.InsufficientFunds ∧
      withdraw_step account currency amount rates = account) ∧
    (d = account.balance →
      withdraw_balance account currency amount rates
        = Except.ok (Account.mk account.name 0 account.currency)) := by
  constructor
  · intro hguard
    have h1 : withdraw_balance account currency amount rates
        = Except.error TxError.InsufficientFunds := by
      simp [withdraw_balance, hcur, hd, hguard]
    exact ⟨h1, by simp [withdraw_step, h1]⟩
  · intro hfull
    have hguard : ¬ (account.balance - d < 0) := by rw [hfull]; simp
    simp [withdraw_balance, hcur, hd, hguard, hfull]

/-- Witness for C7: withdrawing 200 PHP from a balance of 100 reports
insufficient funds and leaves the account untouched. -/
theorem C7_withdraw_guard_witness :
    withdraw_balance (Account.mk "Eve" 100 "PHP") "PHP" 200 init_rates
      = Except.error TxError.InsufficientFunds ∧
    withdraw_step (Account.mk "Eve" 100 "PHP") "PHP" 200 init_rates
      = Account.mk "Eve" 100 "PHP" :=
  (C7_withdraw_guard (Account.mk "Eve" 100 "PHP") "PHP" 200 init_rates (by decide) 200
    (by rfl)).1 (by norm_num)

/-- Counterexample to claim C8: registering the empty name (what remains of a
whitespace-only response after `prompt` trims it) is not rejected with
`InvalidName`; it appends an account whose owner name is empty. -/
theorem C8_invalid_name_counterexample :
    register [] "" = Except.ok [Account.mk "" 0 "PHP"] := by
  norm_num [register, Account.new]

/-- Claim C8 as amended: `register` performs no name validation — the empty
name is treated like any other, and whenever no all-fields-equal account is
already present, an account with the empty owner name is appended. -/
theorem C8_invalid_name_amended (accounts : List Account)
    (h : Account.new "" ∉ accounts) :
    register accounts "" = Except.ok (accounts ++ [Account.new ""]) := by
  simp [register, h]

/-- Witness for C8 over a registry holding one account named Bob. -/
theorem C8_invalid_name_witness :
    register [Account.new "Bob"] "" = Except.ok [Account.new "Bob", Account.new ""] := by
  have h := C8_invalid_name_amended [Account.new "Bob"] (by decide)
  simpa using h

/-- Claim C9: converting from the home currency to the home currency returns
the amount unchanged, for every rate table. -/
theorem C9_home_identity (x : ℚ) (rates : RateTable) :
    convert_currency x "PHP" "PHP" rates = some x := by
  simp [convert_currency]

/-- Claim C10: for any source and destination code in the catalog and any rate
table reachable from session initialization by a sequence of transactions,
`convert_currency` never hits a missing rate-table key. -/
theorem C10_convert_total (ops : List Op) (x : ℚ) (src dest : String)
    (hs : src ∈ CURRENCIES_CODES) (hd : dest ∈ CURRENCIES_CODES) :
    (convert_currency x src dest (run_ops init_state ops).rates).isSome = true :=
  convert_currency_isSome x src dest (run_ops init_state ops).rates
    (run_ops_complete ops init_state init_rates_complete) hs hd

/-- Witness for C10: after recording a USD rate, a USD→JPY quote still finds
both keys. -/
theorem C10_convert_total_witness :
    (convert_currency 2 "USD" "JPY" (run_ops init_state [Op.setRate 1 55]).rates).isSome
      = true :=
  C10_convert_total [Op.setRate 1 55] 2 "USD" "JPY" (by decide) (by decide)

end MCOS
